import Mathlib

/-!
# Home intrusion detection system (ATmega328P): the polling loop of `main.c`

A shallow embedding of `src/C_program_Atmega328p/main.c`.

* The I/O registers the program writes are fields of `Mcu`; every register is
  8 bits wide, so every store reduces modulo `2 ^ 8`.
* `int` is 16 bits on AVR, `unsigned long` is 32 bits; `~x` on an `int` is the
  16-bit complement `cpl16`, and it is always and-ed with an 8-bit register.
* What the program does to the outside world is recorded, in program order, in
  `Mcu.trace`: every store to `PORTB`, every byte stored to `UDR0`, every delay.
* What the outside world does to the program in one pass of `while (1)` is two
  numbers: the value read from `PIND` (line 59) and the value of the `ADC` data
  register once the conversion has completed (line 120).
* The two busy-wait loops (`UDRE0` in `UART_TxChar`, `ADSC` in `ADC_Read`) poll
  flags owned by the hardware; the embedding describes the runs in which the
  hardware raises the flag, so that the statement after the loop is reached.
-/

namespace Ids

/-! ## Bit positions of `<avr/io.h>` for the ATmega328P and the program's macros -/

def PB0 : Nat := 0
def PB1 : Nat := 1
def PB3 : Nat := 3
def PD2 : Nat := 2
def REFS0 : Nat := 6
def ADEN : Nat := 7
def ADSC : Nat := 6
def ADPS2 : Nat := 2
def ADPS1 : Nat := 1
def ADPS0 : Nat := 0
def TXEN0 : Nat := 3
def UCSZ01 : Nat := 2
def UCSZ00 : Nat := 1

def F_CPU : Nat := 16000000
def SOUND_ADC_CHANNEL : Nat := 2
def RED_LED : Nat := PB3
def SOUND_THRESHOLD : Nat := 60
def IR_TX_PIN : Nat := PB0
def YELLOW_LED : Nat := PB1
def IR_RX_PIN : Nat := PD2
def USART_BAUDRATE : Nat := 9600
def BAUD_PRESCALE : Nat := ((F_CPU / 16) / USART_BAUDRATE - 1) % 2 ^ 32

/-! ## Machine integers -/

/-- Narrowing to `uint8_t` / an 8-bit register. -/
def u8 (x : Nat) : Nat := x % 2 ^ 8

/-- Narrowing to `uint16_t` / `unsigned int`. -/
def u16 (x : Nat) : Nat := x % 2 ^ 16

/-- Arithmetic in `unsigned long` (32 bits on AVR). -/
def u32 (x : Nat) : Nat := x % 2 ^ 32

/-- The operator `~` on a non-negative 16-bit `int`, as a bit pattern. -/
def cpl16 (x : Nat) : Nat := (2 ^ 16 - 1) ^^^ x

/-! ## State and observable events -/

/-- What the program does to the outside world. -/
inductive Event where
  | portb (v : Nat)
  | tx (ch : Char)
  | delay_ms (n : Nat)
  | delay_us (n : Nat)
deriving DecidableEq

/-- The registers written by the program, and the events so far. -/
structure Mcu where
  DDRB : Nat
  PORTB : Nat
  DDRD : Nat
  PORTD : Nat
  ADMUX : Nat
  ADCSRA : Nat
  UBRR0H : Nat
  UBRR0L : Nat
  UCSR0B : Nat
  UCSR0C : Nat
  trace : List Event

/-- A store `PORTB = v`. -/
def writePORTB (v : Nat) (s : Mcu) : Mcu :=
  { s with PORTB := u8 v, trace := s.trace ++ [Event.portb (u8 v)] }

/-- The library call `_delay_ms(n)`. -/
def _delay_ms (n : Nat) (s : Mcu) : Mcu :=
  { s with trace := s.trace ++ [Event.delay_ms n] }

/-- The library call `_delay_us(n)`. -/
def _delay_us (n : Nat) (s : Mcu) : Mcu :=
  { s with trace := s.trace ++ [Event.delay_us n] }

/-- A loop `for (uint8_t i = 0; i < n; i++) body`, whose body does not use `i`
(`n` is 5 or 100 in the program, so `i` never wraps). -/
def forLoop : Nat → (Mcu → Mcu) → Mcu → Mcu
  | 0, _, s => s
  | n + 1, body, s => forLoop n body (body s)

/-! ## The functions of `main.c` -/

/-- Lines 29-35. -/
def UART_init (ubrr : Nat) (s : Mcu) : Mcu :=
  { s with
    UBRR0H := u8 (ubrr >>> 8)
    UBRR0L := u8 ubrr
    UCSR0B := u8 (1 <<< TXEN0)
    UCSR0C := u8 ((1 <<< UCSZ01) ||| (1 <<< UCSZ00)) }

/-- Lines 37-41: once `UDRE0` is set, the byte is stored to `UDR0`. -/
def UART_TxChar (ch : Char) (s : Mcu) : Mcu :=
  { s with trace := s.trace ++ [Event.tx ch] }

/-- Lines 107-112. -/
def ADC_Init (s : Mcu) : Mcu :=
  { s with
    ADMUX := u8 (1 <<< REFS0)
    ADCSRA := u8 ((1 <<< ADEN) ||| (1 <<< ADPS2) ||| (1 <<< ADPS1) ||| (1 <<< ADPS0)) }

/-- Lines 114-121: `adc` is the content of the `ADC` data register when the
hardware clears `ADSC`; the function returns it as a `uint16_t`. -/
def ADC_Read (channel : Nat) (adc : Nat) (s : Mcu) : Nat × Mcu :=
  let s1 := { s with ADMUX := u8 ((s.ADMUX &&& 0xF0) ||| (u8 channel &&& 0x0F)) }
  let s2 := _delay_us 5 s1
  let s3 := { s2 with ADCSRA := u8 (s2.ADCSRA ||| (1 <<< ADSC)) }
  let s4 := { s3 with ADCSRA := u8 (s3.ADCSRA &&& cpl16 (1 <<< ADSC)) }
  (u16 adc, s4)

/-- Lines 45-53: the configuration before `while (1)`. -/
def setup (s : Mcu) : Mcu :=
  let s := { s with DDRB := u8 (s.DDRB ||| ((1 <<< IR_TX_PIN) ||| (1 <<< YELLOW_LED))) }
  let s := { s with DDRD := u8 (s.DDRD &&& cpl16 (1 <<< IR_RX_PIN)) }
  let s := { s with PORTD := u8 (s.PORTD ||| (1 <<< IR_RX_PIN)) }
  let s := writePORTB (s.PORTB ||| (1 <<< IR_TX_PIN)) s
  let s := ADC_Init s
  let s := UART_init (u16 BAUD_PRESCALE) s
  { s with DDRB := u8 (s.DDRB ||| (1 <<< RED_LED)) }

/-- Line 59: `uint8_t beam_blocked = PIND & (1 << IR_RX_PIN);`. -/
def beamBlocked (pind : Nat) : Nat := u8 (pind &&& (1 <<< IR_RX_PIN))

/-- Line 71: `(ADC_Read(..) * 202UL) / 100UL`, stored in a `uint16_t`. -/
def scale (sample : Nat) : Nat := u16 (u32 (sample * 202) / 100)

/-- Lines 60-69: the beam check. -/
def beamCheck (beam_blocked : Nat) (s : Mcu) : Mcu :=
  if beam_blocked ≠ 0 then
    UART_TxChar 'I'
      (forLoop 5 (fun t => _delay_ms 100 (writePORTB (t.PORTB ^^^ (1 <<< RED_LED)) t)) s)
  else
    writePORTB (s.PORTB &&& cpl16 (1 <<< YELLOW_LED)) s

/-- Lines 72-81: the sound check. -/
def soundCheck (soundValue : Nat) (s : Mcu) : Mcu :=
  if soundValue > SOUND_THRESHOLD then
    UART_TxChar 'S'
      (forLoop 5 (fun t => _delay_ms 100 (writePORTB (t.PORTB ^^^ (1 <<< YELLOW_LED)) t)) s)
  else
    writePORTB (s.PORTB &&& cpl16 (1 <<< RED_LED)) s

/-- Lines 85-94: one pass of the alternating flash. -/
def flashBody (t : Mcu) : Mcu :=
  let t := writePORTB (t.PORTB ||| (1 <<< YELLOW_LED)) t
  let t := writePORTB (t.PORTB &&& cpl16 (1 <<< RED_LED)) t
  let t := _delay_ms 25 t
  let t := writePORTB (t.PORTB ||| (1 <<< RED_LED)) t
  let t := writePORTB (t.PORTB &&& cpl16 (1 <<< YELLOW_LED)) t
  _delay_ms 25 t

/-- Lines 83-98: the combined check. -/
def combinedCheck (beam_blocked soundValue : Nat) (s : Mcu) : Mcu :=
  if beam_blocked ≠ 0 ∧ soundValue > SOUND_THRESHOLD then
    let s := forLoop 100 flashBody s
    let s := writePORTB (s.PORTB &&& cpl16 ((1 <<< RED_LED) ||| (1 <<< YELLOW_LED))) s
    UART_TxChar 'B' s
  else
    s

/-- Lines 59-100: one pass of the body of `while (1)`, on the inputs `pind`
(the value read from `PIND`) and `adc` (the converted sample). -/
def loopBody (pind adc : Nat) (s : Mcu) : Mcu :=
  let beam_blocked := beamBlocked pind
  let s := beamCheck beam_blocked s
  let r := ADC_Read SOUND_ADC_CHANNEL adc s
  let soundValue := scale r.1
  let s := soundCheck soundValue r.2
  let s := combinedCheck beam_blocked soundValue s
  _delay_ms 10 s

/-- Lines 57-101 run for as many passes as there are input pairs. -/
def mainLoop : List (Nat × Nat) → Mcu → Mcu
  | [], s => s
  | io :: rest, s => mainLoop rest (loopBody io.1 io.2 s)

/-- Lines 43-101: `main` from the power-on state `s`. -/
def main (inputs : List (Nat × Nat)) (s : Mcu) : Mcu :=
  mainLoop inputs (setup s)

/-! ## Observations -/

/-- The bytes sent over the serial line, in order. -/
def txBytes : List Event → List Char
  | [] => []
  | Event.tx ch :: es => ch :: txBytes es
  | _ :: es => txBytes es

/-- The values stored to `PORTB`, in order. -/
def portbWrites : List Event → List Nat
  | [] => []
  | Event.portb v :: es => v :: portbWrites es
  | _ :: es => portbWrites es

/-- The events of one pass of the loop body started in `s`. -/
def iterationEvents (pind adc : Nat) (s : Mcu) : List Event :=
  (loopBody pind adc s).trace.drop s.trace.length

/-- The events of `main` after power-on in `s`. -/
def mainEvents (inputs : List (Nat × Nat)) (s : Mcu) : List Event :=
  (main inputs s).trace.drop s.trace.length

/-- The value `v` agrees with `p` on every bit of the port other than the two
indicator bits. -/
def SameOtherBits (p v : Nat) : Prop :=
  ∀ i, i < 8 → i ≠ YELLOW_LED → i ≠ RED_LED → v.testBit i = p.testBit i

/-- The state `s` extends the trace `base` by events that send exactly `bytes`
and whose stores to `PORTB`, like the present value of `PORTB`, agree with `p`
outside the two indicator bits. -/
def Reach (p : Nat) (base : List Event) (bytes : List Char) (s : Mcu) : Prop :=
  SameOtherBits p s.PORTB ∧
    ∃ evs, s.trace = base ++ evs ∧ txBytes evs = bytes ∧
      ∀ v ∈ portbWrites evs, SameOtherBits p v

/-- The bytes one pass sends, from the two values the pass branches on. -/
def passBytes (beam_blocked soundValue : Nat) : List Char :=
  (if beam_blocked ≠ 0 then ['I'] else []) ++
    ((if soundValue > SOUND_THRESHOLD then ['S'] else []) ++
      (if beam_blocked ≠ 0 ∧ soundValue > SOUND_THRESHOLD then ['B'] else []))

/-- A state with every register zero and no event yet. -/
def powerOn : Mcu :=
  { DDRB := 0, PORTB := 0, DDRD := 0, PORTD := 0, ADMUX := 0, ADCSRA := 0,
    UBRR0H := 0, UBRR0L := 0, UCSR0B := 0, UCSR0C := 0, trace := [] }

/-! ## Bit-level facts -/

theorem testBit_cpl16 (x i : Nat) :
    (cpl16 x).testBit i = (decide (i < 16) ^^ x.testBit i) := by
  unfold cpl16
  rw [Nat.testBit_xor, Nat.testBit_two_pow_sub_one]

theorem testBit_u8 (x i : Nat) : (u8 x).testBit i = (decide (i < 8) && x.testBit i) := by
  unfold u8
  rw [Nat.testBit_mod_two_pow]

theorem testBit_bit (k i : Nat) : (1 <<< k).testBit i = decide (k = i) := by
  rw [Nat.one_shiftLeft, Nat.testBit_two_pow]

theorem beamBlocked_ne_zero_iff (pind : Nat) :
    beamBlocked pind ≠ 0 ↔ pind.testBit IR_RX_PIN = true := by
  constructor
  · intro h
    by_contra hb
    apply h
    apply Nat.eq_of_testBit_eq
    intro i
    simp only [beamBlocked, testBit_u8, Nat.testBit_and, testBit_bit, Nat.zero_testBit]
    by_cases hi : IR_RX_PIN = i
    · subst hi
      simp [hb]
    · simp [hi]
  · intro hb h
    have h2 : (beamBlocked pind).testBit IR_RX_PIN = true := by
      simp only [beamBlocked, testBit_u8, Nat.testBit_and, testBit_bit, hb]
      simp [IR_RX_PIN, PD2]
    rw [h] at h2
    simp at h2

theorem scale_eq (sample : Nat) (h : sample ≤ 1023) : scale sample = sample * 202 / 100 := by
  have h1 : sample * 202 < 2 ^ 32 := by omega
  have h2 : sample * 202 / 100 < 2 ^ 16 := by omega
  unfold scale u16 u32
  rw [Nat.mod_eq_of_lt h1, Nat.mod_eq_of_lt h2]

/-! ## Field projections of the primitive operations -/

@[simp] theorem writePORTB_PORTB (v : Nat) (s : Mcu) : (writePORTB v s).PORTB = u8 v := rfl

@[simp] theorem writePORTB_trace (v : Nat) (s : Mcu) :
    (writePORTB v s).trace = s.trace ++ [Event.portb (u8 v)] := rfl

@[simp] theorem delay_ms_PORTB (n : Nat) (s : Mcu) : (_delay_ms n s).PORTB = s.PORTB := rfl

@[simp] theorem delay_ms_trace (n : Nat) (s : Mcu) :
    (_delay_ms n s).trace = s.trace ++ [Event.delay_ms n] := rfl

@[simp] theorem UART_TxChar_PORTB (ch : Char) (s : Mcu) : (UART_TxChar ch s).PORTB = s.PORTB :=
  rfl

@[simp] theorem UART_TxChar_trace (ch : Char) (s : Mcu) :
    (UART_TxChar ch s).trace = s.trace ++ [Event.tx ch] := rfl

@[simp] theorem ADC_Read_PORTB (channel adc : Nat) (s : Mcu) :
    (ADC_Read channel adc s).2.PORTB = s.PORTB := rfl

@[simp] theorem ADC_Read_trace (channel adc : Nat) (s : Mcu) :
    (ADC_Read channel adc s).2.trace = s.trace ++ [Event.delay_us 5] := rfl

@[simp] theorem ADC_Read_fst (channel adc : Nat) (s : Mcu) :
    (ADC_Read channel adc s).1 = u16 adc := rfl

theorem forLoop_succ (n : Nat) (body : Mcu → Mcu) (s : Mcu) :
    forLoop (n + 1) body s = forLoop n body (body s) := rfl

theorem forLoop_five (body : Mcu → Mcu) (s : Mcu) :
    forLoop 5 body s = body (body (body (body (body s)))) := rfl

/-! ## Observations of a concatenated trace -/

theorem txBytes_append (xs ys : List Event) : txBytes (xs ++ ys) = txBytes xs ++ txBytes ys := by
  induction xs with
  | nil => rfl
  | cons e es ih => cases e <;> simp [txBytes, ih]

theorem portbWrites_append (xs ys : List Event) :
    portbWrites (xs ++ ys) = portbWrites xs ++ portbWrites ys := by
  induction xs with
  | nil => rfl
  | cons e es ih => cases e <;> simp [portbWrites, ih]

/-! ## Stores to `PORTB` touch the two indicator bits only -/

theorem sameOtherBits_refl (p : Nat) : SameOtherBits p p := fun _ _ _ _ => rfl

theorem sameOtherBits_xor (p x k : Nat) (hk : k = YELLOW_LED ∨ k = RED_LED)
    (h : SameOtherBits p x) : SameOtherBits p (u8 (x ^^^ (1 <<< k))) := by
  intro i hi h1 h3
  have hki : ¬ k = i := by rcases hk with hk | hk <;> (subst hk; exact fun e => by simp_all)
  rw [testBit_u8, Nat.testBit_xor, testBit_bit, h i hi h1 h3]
  simp [hi, hki]

theorem sameOtherBits_or (p x k : Nat) (hk : k = YELLOW_LED ∨ k = RED_LED)
    (h : SameOtherBits p x) : SameOtherBits p (u8 (x ||| (1 <<< k))) := by
  intro i hi h1 h3
  have hki : ¬ k = i := by rcases hk with hk | hk <;> (subst hk; exact fun e => by simp_all)
  rw [testBit_u8, Nat.testBit_or, testBit_bit, h i hi h1 h3]
  simp [hi, hki]

theorem sameOtherBits_and_cpl (p x k : Nat) (hk : k = YELLOW_LED ∨ k = RED_LED)
    (h : SameOtherBits p x) : SameOtherBits p (u8 (x &&& cpl16 (1 <<< k))) := by
  intro i hi h1 h3
  have hki : ¬ k = i := by rcases hk with hk | hk <;> (subst hk; exact fun e => by simp_all)
  have hi16 : i < 16 := by omega
  rw [testBit_u8, Nat.testBit_and, testBit_cpl16, testBit_bit, h i hi h1 h3]
  simp [hi, hki, hi16]

theorem sameOtherBits_and_cpl_both (p x : Nat) (h : SameOtherBits p x) :
    SameOtherBits p (u8 (x &&& cpl16 ((1 <<< RED_LED) ||| (1 <<< YELLOW_LED)))) := by
  intro i hi h1 h3
  have hi16 : i < 16 := by omega
  rw [testBit_u8, Nat.testBit_and, testBit_cpl16, Nat.testBit_or, testBit_bit, testBit_bit,
    h i hi h1 h3]
  simp [hi, hi16, Ne.symm h1, Ne.symm h3]

/-! ## Reachability with a recorded effect -/

theorem reach_start (s : Mcu) : Reach s.PORTB s.trace [] s :=
  ⟨sameOtherBits_refl _, [], by simp, rfl, by simp [portbWrites]⟩

theorem reach_write {p : Nat} {base : List Event} {bytes : List Char} {s : Mcu} (v : Nat)
    (h : Reach p base bytes s) (hv : SameOtherBits p (u8 v)) :
    Reach p base bytes (writePORTB v s) := by
  obtain ⟨_, evs, ht, hb, hw⟩ := h
  refine ⟨hv, evs ++ [Event.portb (u8 v)], ?_, ?_, ?_⟩
  · simp [ht]
  · simp [txBytes_append, hb, txBytes]
  · intro w hw2
    rw [portbWrites_append] at hw2
    rcases List.mem_append.mp hw2 with hw2 | hw2
    · exact hw w hw2
    · simp [portbWrites] at hw2
      subst hw2
      exact hv

theorem reach_delay_ms {p : Nat} {base : List Event} {bytes : List Char} {s : Mcu} (n : Nat)
    (h : Reach p base bytes s) : Reach p base bytes (_delay_ms n s) := by
  obtain ⟨hp, evs, ht, hb, hw⟩ := h
  refine ⟨hp, evs ++ [Event.delay_ms n], ?_, ?_, ?_⟩
  · simp [ht]
  · simp [txBytes_append, hb, txBytes]
  · intro w hw2
    rw [portbWrites_append] at hw2
    simp [portbWrites] at hw2
    exact hw w hw2

theorem reach_ADC_Read {p : Nat} {base : List Event} {bytes : List Char} {s : Mcu}
    (channel adc : Nat) (h : Reach p base bytes s) :
    Reach p base bytes (ADC_Read channel adc s).2 := by
  obtain ⟨hp, evs, ht, hb, hw⟩ := h
  refine ⟨hp, evs ++ [Event.delay_us 5], ?_, ?_, ?_⟩
  · simp [ht]
  · simp [txBytes_append, hb, txBytes]
  · intro w hw2
    rw [portbWrites_append] at hw2
    simp [portbWrites] at hw2
    exact hw w hw2

theorem reach_tx {p : Nat} {base : List Event} {bytes : List Char} {s : Mcu} (ch : Char)
    (h : Reach p base bytes s) : Reach p base (bytes ++ [ch]) (UART_TxChar ch s) := by
  obtain ⟨hp, evs, ht, hb, hw⟩ := h
  refine ⟨hp, evs ++ [Event.tx ch], ?_, ?_, ?_⟩
  · simp [ht]
  · simp [txBytes_append, hb, txBytes]
  · intro w hw2
    rw [portbWrites_append] at hw2
    simp [portbWrites] at hw2
    exact hw w hw2

theorem reach_forLoop {p : Nat} {base : List Event} {bytes : List Char} (body : Mcu → Mcu)
    (hbody : ∀ t, Reach p base bytes t → Reach p base bytes (body t)) (n : Nat) :
    ∀ s, Reach p base bytes s → Reach p base bytes (forLoop n body s) := by
  induction n with
  | zero => intro s h; exact h
  | succ n ih => intro s h; rw [forLoop_succ]; exact ih _ (hbody s h)

theorem reach_flashBody {p : Nat} {base : List Event} {bytes : List Char} (t : Mcu)
    (h : Reach p base bytes t) : Reach p base bytes (flashBody t) := by
  unfold flashBody
  have h1 := reach_write (t.PORTB ||| (1 <<< YELLOW_LED)) h
    (sameOtherBits_or _ _ _ (Or.inl rfl) h.1)
  have h2 := reach_write ((writePORTB (t.PORTB ||| (1 <<< YELLOW_LED)) t).PORTB
    &&& cpl16 (1 <<< RED_LED)) h1 (sameOtherBits_and_cpl _ _ _ (Or.inr rfl) h1.1)
  have h3 := reach_delay_ms 25 h2
  have h4 := reach_write (_ ||| (1 <<< RED_LED)) h3 (sameOtherBits_or _ _ _ (Or.inr rfl) h3.1)
  have h5 := reach_write (_ &&& cpl16 (1 <<< YELLOW_LED)) h4
    (sameOtherBits_and_cpl _ _ _ (Or.inl rfl) h4.1)
  exact reach_delay_ms 25 h5

theorem reach_toggle {p : Nat} {base : List Event} {bytes : List Char} (k : Nat)
    (hk : k = YELLOW_LED ∨ k = RED_LED) (t : Mcu) (h : Reach p base bytes t) :
    Reach p base bytes (_delay_ms 100 (writePORTB (t.PORTB ^^^ (1 <<< k)) t)) :=
  reach_delay_ms 100 (reach_write _ h (sameOtherBits_xor _ _ _ hk h.1))

theorem reach_beamCheck {p : Nat} {base : List Event} {bytes : List Char} {s : Mcu}
    (b : Nat) (h : Reach p base bytes s) :
    Reach p base (bytes ++ if b ≠ 0 then ['I'] else []) (beamCheck b s) := by
  unfold beamCheck
  split
  · exact reach_tx 'I' (reach_forLoop _ (reach_toggle RED_LED (Or.inr rfl)) 5 s h)
  · rw [List.append_nil]
    exact reach_write _ h (sameOtherBits_and_cpl _ _ _ (Or.inl rfl) h.1)

theorem reach_soundCheck {p : Nat} {base : List Event} {bytes : List Char} {s : Mcu}
    (v : Nat) (h : Reach p base bytes s) :
    Reach p base (bytes ++ if v > SOUND_THRESHOLD then ['S'] else []) (soundCheck v s) := by
  unfold soundCheck
  split
  · exact reach_tx 'S' (reach_forLoop _ (reach_toggle YELLOW_LED (Or.inl rfl)) 5 s h)
  · rw [List.append_nil]
    exact reach_write _ h (sameOtherBits_and_cpl _ _ _ (Or.inr rfl) h.1)

theorem reach_combinedCheck {p : Nat} {base : List Event} {bytes : List Char} {s : Mcu}
    (b v : Nat) (h : Reach p base bytes s) :
    Reach p base (bytes ++ if b ≠ 0 ∧ v > SOUND_THRESHOLD then ['B'] else [])
      (combinedCheck b v s) := by
  unfold combinedCheck
  split
  · have h1 := reach_forLoop flashBody reach_flashBody 100 s h
    exact reach_tx 'B' (reach_write _ h1 (sameOtherBits_and_cpl_both _ _ h1.1))
  · rw [List.append_nil]
    exact h

theorem reach_loopBody {p : Nat} {base : List Event} {bytes : List Char} {s : Mcu}
    (pind adc : Nat) (h : Reach p base bytes s) :
    Reach p base (bytes ++ passBytes (beamBlocked pind) (scale (u16 adc)))
      (loopBody pind adc s) := by
  unfold loopBody passBytes
  have h1 := reach_beamCheck (beamBlocked pind) h
  have h2 := reach_ADC_Read SOUND_ADC_CHANNEL adc h1
  have h3 := reach_soundCheck (scale (u16 adc)) h2
  have h4 := reach_combinedCheck (beamBlocked pind) (scale (u16 adc)) h3
  have h5 := reach_delay_ms 10 h4
  simpa [List.append_assoc] using h5

/-- One pass only appends to the trace; what it appends sends `passBytes`, and
every store to `PORTB` in it leaves the bits other than the indicators alone. -/
theorem iterationEvents_spec (pind adc : Nat) (s : Mcu) :
    (loopBody pind adc s).trace = s.trace ++ iterationEvents pind adc s ∧
      txBytes (iterationEvents pind adc s) = passBytes (beamBlocked pind) (scale (u16 adc)) ∧
      (∀ v ∈ portbWrites (iterationEvents pind adc s), SameOtherBits s.PORTB v) ∧
      SameOtherBits s.PORTB (loopBody pind adc s).PORTB := by
  obtain ⟨hp, evs, ht, hb, hw⟩ := reach_loopBody pind adc (reach_start s)
  have he : iterationEvents pind adc s = evs := by
    unfold iterationEvents
    rw [ht, List.drop_left]
  rw [he]
  exact ⟨ht, by simpa using hb, hw, hp⟩

/-! ## The two indicator bits after each check -/

theorem beamCheck_RED (b : Nat) (s : Mcu) :
    (beamCheck b s).PORTB.testBit RED_LED =
      if b ≠ 0 then !s.PORTB.testBit RED_LED else s.PORTB.testBit RED_LED := by
  unfold beamCheck
  split
  · simp only [forLoop_five, writePORTB_PORTB, delay_ms_PORTB, UART_TxChar_PORTB, testBit_u8,
      Nat.testBit_xor, Nat.testBit_and, Nat.testBit_or, testBit_cpl16, testBit_bit]
    simp [RED_LED, PB3, YELLOW_LED, PB1]
  · simp only [forLoop_five, writePORTB_PORTB, delay_ms_PORTB, UART_TxChar_PORTB, testBit_u8,
      Nat.testBit_xor, Nat.testBit_and, Nat.testBit_or, testBit_cpl16, testBit_bit]
    simp [RED_LED, PB3, YELLOW_LED, PB1]

theorem beamCheck_YELLOW (b : Nat) (s : Mcu) :
    (beamCheck b s).PORTB.testBit YELLOW_LED =
      if b ≠ 0 then s.PORTB.testBit YELLOW_LED else false := by
  unfold beamCheck
  split
  · simp only [forLoop_five, writePORTB_PORTB, delay_ms_PORTB, UART_TxChar_PORTB, testBit_u8,
      Nat.testBit_xor, Nat.testBit_and, Nat.testBit_or, testBit_cpl16, testBit_bit]
    simp [RED_LED, PB3, YELLOW_LED, PB1]
  · simp only [forLoop_five, writePORTB_PORTB, delay_ms_PORTB, UART_TxChar_PORTB, testBit_u8,
      Nat.testBit_xor, Nat.testBit_and, Nat.testBit_or, testBit_cpl16, testBit_bit]
    simp [RED_LED, PB3, YELLOW_LED, PB1]

theorem soundCheck_RED (v : Nat) (s : Mcu) :
    (soundCheck v s).PORTB.testBit RED_LED =
      if v > SOUND_THRESHOLD then s.PORTB.testBit RED_LED else false := by
  unfold soundCheck
  split
  · simp only [forLoop_five, writePORTB_PORTB, delay_ms_PORTB, UART_TxChar_PORTB, testBit_u8,
      Nat.testBit_xor, Nat.testBit_and, Nat.testBit_or, testBit_cpl16, testBit_bit]
    simp [RED_LED, PB3, YELLOW_LED, PB1]
  · simp only [forLoop_five, writePORTB_PORTB, delay_ms_PORTB, UART_TxChar_PORTB, testBit_u8,
      Nat.testBit_xor, Nat.testBit_and, Nat.testBit_or, testBit_cpl16, testBit_bit]
    simp [RED_LED, PB3, YELLOW_LED, PB1]

theorem soundCheck_YELLOW (v : Nat) (s : Mcu) :
    (soundCheck v s).PORTB.testBit YELLOW_LED =
      if v > SOUND_THRESHOLD then !s.PORTB.testBit YELLOW_LED else s.PORTB.testBit YELLOW_LED := by
  unfold soundCheck
  split
  · simp only [forLoop_five, writePORTB_PORTB, delay_ms_PORTB, UART_TxChar_PORTB, testBit_u8,
      Nat.testBit_xor, Nat.testBit_and, Nat.testBit_or, testBit_cpl16, testBit_bit]
    simp [RED_LED, PB3, YELLOW_LED, PB1]
  · simp only [forLoop_five, writePORTB_PORTB, delay_ms_PORTB, UART_TxChar_PORTB, testBit_u8,
      Nat.testBit_xor, Nat.testBit_and, Nat.testBit_or, testBit_cpl16, testBit_bit]
    simp [RED_LED, PB3, YELLOW_LED, PB1]

theorem combinedCheck_RED (b v : Nat) (s : Mcu) :
    (combinedCheck b v s).PORTB.testBit RED_LED =
      if b ≠ 0 ∧ v > SOUND_THRESHOLD then false else s.PORTB.testBit RED_LED := by
  unfold combinedCheck
  split
  · simp only [forLoop_five, writePORTB_PORTB, delay_ms_PORTB, UART_TxChar_PORTB, testBit_u8,
      Nat.testBit_xor, Nat.testBit_and, Nat.testBit_or, testBit_cpl16, testBit_bit]
    simp [RED_LED, PB3, YELLOW_LED, PB1]
  · rfl

theorem combinedCheck_YELLOW (b v : Nat) (s : Mcu) :
    (combinedCheck b v s).PORTB.testBit YELLOW_LED =
      if b ≠ 0 ∧ v > SOUND_THRESHOLD then false else s.PORTB.testBit YELLOW_LED := by
  unfold combinedCheck
  split
  · simp only [forLoop_five, writePORTB_PORTB, delay_ms_PORTB, UART_TxChar_PORTB, testBit_u8,
      Nat.testBit_xor, Nat.testBit_and, Nat.testBit_or, testBit_cpl16, testBit_bit]
    simp [RED_LED, PB3, YELLOW_LED, PB1]
  · rfl

/-- The red indicator after one pass. -/
theorem loopBody_RED (pind adc : Nat) (s : Mcu) :
    (loopBody pind adc s).PORTB.testBit RED_LED =
      if scale (u16 adc) > SOUND_THRESHOLD then
        (if beamBlocked pind ≠ 0 then false else s.PORTB.testBit RED_LED)
      else false := by
  simp only [loopBody, delay_ms_PORTB, combinedCheck_RED, soundCheck_RED, ADC_Read_PORTB,
    ADC_Read_fst, beamCheck_RED]
  by_cases hb : beamBlocked pind ≠ 0 <;> by_cases hv : scale (u16 adc) > SOUND_THRESHOLD <;>
    simp [hb, hv]

/-- The yellow indicator after one pass. -/
theorem loopBody_YELLOW (pind adc : Nat) (s : Mcu) :
    (loopBody pind adc s).PORTB.testBit YELLOW_LED =
      if beamBlocked pind ≠ 0 then
        (if scale (u16 adc) > SOUND_THRESHOLD then false else s.PORTB.testBit YELLOW_LED)
      else decide (scale (u16 adc) > SOUND_THRESHOLD) := by
  simp only [loopBody, delay_ms_PORTB, combinedCheck_YELLOW, soundCheck_YELLOW, ADC_Read_PORTB,
    ADC_Read_fst, beamCheck_YELLOW]
  by_cases hb : beamBlocked pind ≠ 0 <;> by_cases hv : scale (u16 adc) > SOUND_THRESHOLD <;>
    simp [hb, hv]

theorem u16_sample (adc : Nat) (h : adc ≤ 1023) : u16 adc = adc :=
  Nat.mod_eq_of_lt (by omega)

theorem beamBlocked_eq_zero_iff (pind : Nat) :
    beamBlocked pind = 0 ↔ pind.testBit IR_RX_PIN = false := by
  rw [← not_iff_not, ← ne_eq, beamBlocked_ne_zero_iff]
  simp

theorem scale_sample (adc : Nat) (h : adc ≤ 1023) : scale (u16 adc) = adc * 202 / 100 := by
  rw [u16_sample adc h, scale_eq adc h]

theorem txBytes_iterationEvents (pind adc : Nat) (s : Mcu) :
    txBytes (iterationEvents pind adc s) = passBytes (beamBlocked pind) (scale (u16 adc)) :=
  (iterationEvents_spec pind adc s).2.1

/-! ## Several passes -/

theorem reach_setup (s0 : Mcu) : Reach (setup s0).PORTB s0.trace [] (setup s0) := by
  refine ⟨sameOtherBits_refl _, [Event.portb (setup s0).PORTB], rfl, rfl, ?_⟩
  intro v hv
  simp [portbWrites] at hv
  subst hv
  exact sameOtherBits_refl _

theorem setup_PORTB (s0 : Mcu) : (setup s0).PORTB = u8 (s0.PORTB ||| (1 <<< IR_TX_PIN)) := rfl

theorem reach_mainLoop {p : Nat} {base : List Event} (inputs : List (Nat × Nat)) :
    ∀ (bytes : List Char) (s : Mcu), Reach p base bytes s →
      ∃ bytes2, Reach p base bytes2 (mainLoop inputs s) := by
  induction inputs with
  | nil => intro bytes s h; exact ⟨bytes, h⟩
  | cons io rest ih => intro bytes s h; exact ih _ _ (reach_loopBody io.1 io.2 h)

theorem sameOtherBits_IR_TX {p v : Nat} (h : SameOtherBits p v) :
    v.testBit IR_TX_PIN = p.testBit IR_TX_PIN :=
  h IR_TX_PIN (by decide) (by decide) (by decide)

/-- With both conditions true, the pass ends with the store that clears both
indicators, then the byte 'B', then the closing delay; before them it has sent
'I' and 'S'. -/
theorem iterationEvents_both (pind adc : Nat) (s : Mcu) (hb : beamBlocked pind ≠ 0)
    (hv : scale (u16 adc) > SOUND_THRESHOLD) :
    ∃ pre v, iterationEvents pind adc s =
        pre ++ [Event.portb v, Event.tx 'B', Event.delay_ms 10] ∧
      txBytes pre = ['I', 'S'] ∧ v.testBit RED_LED = false ∧ v.testBit YELLOW_LED = false := by
  have h1 := reach_beamCheck (beamBlocked pind) (reach_start s)
  have h2 := reach_ADC_Read SOUND_ADC_CHANNEL adc h1
  have h3 := reach_soundCheck (scale (u16 adc)) h2
  have h4 := reach_forLoop flashBody reach_flashBody 100 _ h3
  obtain ⟨_, pre, ht, hbytes, _⟩ := h4
  refine ⟨pre, u8 ((forLoop 100 flashBody (soundCheck (scale (u16 adc))
    (ADC_Read SOUND_ADC_CHANNEL adc (beamCheck (beamBlocked pind) s)).2)).PORTB &&&
      cpl16 ((1 <<< RED_LED) ||| (1 <<< YELLOW_LED))), ?_, ?_, ?_, ?_⟩
  · unfold iterationEvents
    simp only [loopBody, combinedCheck, ADC_Read_fst]
    rw [if_pos ⟨hb, hv⟩]
    simp only [delay_ms_trace, UART_TxChar_trace, writePORTB_trace, ht, List.append_assoc,
      List.drop_left, List.singleton_append]
    rfl
  · rw [hbytes]
    simp [hb, hv]
  · simp only [testBit_u8, Nat.testBit_and, testBit_cpl16, Nat.testBit_or, testBit_bit]
    simp [RED_LED, PB3]
  · simp only [testBit_u8, Nat.testBit_and, testBit_cpl16, Nat.testBit_or, testBit_bit]
    simp [YELLOW_LED, PB1]

/-! ## The claims -/

/-- C1: for every starting state and every 10-bit ADC sample, when bit PD2 of
PIND is set (so that `beam_blocked` is non-zero) and the scaled sample
`adc * 202 / 100` exceeds 60, one pass of the main loop sends exactly the three
bytes 'I', 'S', 'B', in that order. -/
theorem blocked_and_loud_sends_I_S_B (pind adc : Nat) (s : Mcu) (hadc : adc ≤ 1023)
    (hb : pind.testBit IR_RX_PIN = true) (hs : adc * 202 / 100 > 60) :
    beamBlocked pind ≠ 0 ∧ txBytes (iterationEvents pind adc s) = ['I', 'S', 'B'] := by
  have hb2 : beamBlocked pind ≠ 0 := (beamBlocked_ne_zero_iff pind).mpr hb
  refine ⟨hb2, ?_⟩
  rw [txBytes_iterationEvents, scale_sample adc hadc]
  simp [passBytes, hb2, SOUND_THRESHOLD, hs]

theorem blocked_and_loud_sends_I_S_B_witness :
    beamBlocked 4 ≠ 0 ∧ txBytes (iterationEvents 4 31 powerOn) = ['I', 'S', 'B'] :=
  blocked_and_loud_sends_I_S_B 4 31 powerOn (by decide) (by decide) (by decide)

/-- C2: for every starting state and every 10-bit sample with
`adc * 202 / 100 ≤ 60`, when bit PD2 of PIND is clear (`beam_blocked` is zero)
one pass of the main loop sends no byte and ends with RED_LED and YELLOW_LED
cleared in PORTB. -/
theorem unblocked_and_quiet_sends_nothing (pind adc : Nat) (s : Mcu) (hadc : adc ≤ 1023)
    (hb : pind.testBit IR_RX_PIN = false) (hs : adc * 202 / 100 ≤ 60) :
    beamBlocked pind = 0 ∧ txBytes (iterationEvents pind adc s) = [] ∧
      (loopBody pind adc s).PORTB.testBit RED_LED = false ∧
      (loopBody pind adc s).PORTB.testBit YELLOW_LED = false := by
  have hb2 : beamBlocked pind = 0 := (beamBlocked_eq_zero_iff pind).mpr hb
  have hs2 : ¬ adc * 202 / 100 > 60 := by omega
  refine ⟨hb2, ?_, ?_, ?_⟩
  · rw [txBytes_iterationEvents, scale_sample adc hadc]
    simp [passBytes, hb2, SOUND_THRESHOLD, hs2]
  · rw [loopBody_RED, scale_sample adc hadc]
    simp [SOUND_THRESHOLD, hs2]
  · rw [loopBody_YELLOW, scale_sample adc hadc]
    simp [hb2, SOUND_THRESHOLD, hs2]

theorem unblocked_and_quiet_sends_nothing_witness :
    beamBlocked 0 = 0 ∧ txBytes (iterationEvents 0 30 { powerOn with PORTB := 255 }) = [] ∧
      (loopBody 0 30 { powerOn with PORTB := 255 }).PORTB.testBit RED_LED = false ∧
      (loopBody 0 30 { powerOn with PORTB := 255 }).PORTB.testBit YELLOW_LED = false :=
  unblocked_and_quiet_sends_nothing 0 30 { powerOn with PORTB := 255 } (by decide) (by decide)
    (by decide)

/-- C3: for every starting state and every 10-bit sample, a pass in which
exactly one condition holds sends exactly one byte: 'S' alone when PD2 is clear
and `adc * 202 / 100 > 60`, 'I' alone when PD2 is set and
`adc * 202 / 100 ≤ 60`. -/
theorem single_condition_sends_its_code (pind adc : Nat) (s : Mcu) (hadc : adc ≤ 1023) :
    (pind.testBit IR_RX_PIN = false → adc * 202 / 100 > 60 →
        txBytes (iterationEvents pind adc s) = ['S']) ∧
      (pind.testBit IR_RX_PIN = true → adc * 202 / 100 ≤ 60 →
        txBytes (iterationEvents pind adc s) = ['I']) := by
  constructor
  · intro hb hs
    have hb2 : beamBlocked pind = 0 := (beamBlocked_eq_zero_iff pind).mpr hb
    rw [txBytes_iterationEvents, scale_sample adc hadc]
    simp [passBytes, hb2, SOUND_THRESHOLD, hs]
  · intro hb hs
    have hb2 : beamBlocked pind ≠ 0 := (beamBlocked_ne_zero_iff pind).mpr hb
    have hs2 : ¬ adc * 202 / 100 > 60 := by omega
    rw [txBytes_iterationEvents, scale_sample adc hadc]
    simp [passBytes, hb2, SOUND_THRESHOLD, hs2]

theorem single_condition_sends_its_code_witness :
    txBytes (iterationEvents 0 31 powerOn) = ['S'] ∧
      txBytes (iterationEvents 4 30 powerOn) = ['I'] :=
  ⟨(single_condition_sends_its_code 0 31 powerOn (by decide)).1 (by decide) (by decide),
    (single_condition_sends_its_code 4 30 powerOn (by decide)).2 (by decide) (by decide)⟩

/-- C4, as stated, fails: with PD2 of PIND reading set (PIND = 4), sample 0 and
the power-on state, `beam_blocked` is non-zero and the pass sends 'I'. -/
theorem high_pin_takes_blocked_branch :
    Nat.testBit 4 IR_RX_PIN = true ∧ beamBlocked 4 ≠ 0 ∧
      txBytes (iterationEvents 4 0 powerOn) = ['I'] :=
  ⟨by decide, by decide, by rw [txBytes_iterationEvents]; decide⟩

/-- C4, amended: a logic-high level on the beam input pin means the beam is
blocked. For every starting state and every sample value, when bit PD2 of PIND
reads set the pass takes the beam-blocked branch and sends 'I' as its first
byte; when the bit reads clear the pass does not take that branch and sends no
'I'. -/
theorem high_pin_means_blocked (pind adc : Nat) (s : Mcu) :
    (pind.testBit IR_RX_PIN = true →
        beamBlocked pind ≠ 0 ∧ (txBytes (iterationEvents pind adc s)).head? = some 'I') ∧
      (pind.testBit IR_RX_PIN = false →
        beamBlocked pind = 0 ∧ 'I' ∉ txBytes (iterationEvents pind adc s)) := by
  constructor
  · intro hb
    have hb2 : beamBlocked pind ≠ 0 := (beamBlocked_ne_zero_iff pind).mpr hb
    refine ⟨hb2, ?_⟩
    rw [txBytes_iterationEvents]
    simp [passBytes, hb2]
  · intro hb
    have hb2 : beamBlocked pind = 0 := (beamBlocked_eq_zero_iff pind).mpr hb
    refine ⟨hb2, ?_⟩
    rw [txBytes_iterationEvents]
    by_cases hv : scale (u16 adc) > SOUND_THRESHOLD <;> simp [passBytes, hb2, hv]

theorem high_pin_means_blocked_witness :
    (beamBlocked 4 ≠ 0 ∧ (txBytes (iterationEvents 4 31 powerOn)).head? = some 'I') ∧
      (beamBlocked 0 = 0 ∧ 'I' ∉ txBytes (iterationEvents 0 31 powerOn)) :=
  ⟨(high_pin_means_blocked 4 31 powerOn).1 (by decide),
    (high_pin_means_blocked 0 31 powerOn).2 (by decide)⟩

/-- C5: the sound comparison is strict. For every starting state, beam input and
10-bit sample: if `adc * 202 / 100` is exactly 60 the pass sends no 'S' and ends
with RED_LED off; if it is 61 or more the pass sends 'S'. On the comparison
itself (no 10-bit sample scales to exactly 61): with `soundValue = 60` the sound
check sends nothing and forces RED_LED off, with `soundValue = 61` it sends
'S'. -/
theorem sound_comparison_is_strict (pind adc : Nat) (s : Mcu) (hadc : adc ≤ 1023) :
    (adc * 202 / 100 = 60 →
        'S' ∉ txBytes (iterationEvents pind adc s) ∧
          (loopBody pind adc s).PORTB.testBit RED_LED = false) ∧
      (61 ≤ adc * 202 / 100 → 'S' ∈ txBytes (iterationEvents pind adc s)) ∧
      (txBytes (soundCheck 60 s).trace = txBytes s.trace ∧
        (soundCheck 60 s).PORTB.testBit RED_LED = false) ∧
      txBytes (soundCheck 61 s).trace = txBytes s.trace ++ ['S'] := by
  refine ⟨?_, ?_, ⟨?_, ?_⟩, ?_⟩
  · intro h60
    constructor
    · rw [txBytes_iterationEvents, scale_sample adc hadc, h60]
      by_cases hb : beamBlocked pind ≠ 0 <;> simp [passBytes, hb, SOUND_THRESHOLD]
    · rw [loopBody_RED, scale_sample adc hadc, h60]
      simp [SOUND_THRESHOLD]
  · intro h61
    have hs : adc * 202 / 100 > 60 := by omega
    rw [txBytes_iterationEvents, scale_sample adc hadc]
    by_cases hb : beamBlocked pind ≠ 0 <;> simp [passBytes, hb, SOUND_THRESHOLD, hs]
  · have h := (reach_soundCheck 60 (reach_start s)).2
    obtain ⟨evs, ht, hb, _⟩ := h
    rw [ht, txBytes_append, hb]
    simp [SOUND_THRESHOLD]
  · rw [soundCheck_RED]
    simp [SOUND_THRESHOLD]
  · have h := (reach_soundCheck 61 (reach_start s)).2
    obtain ⟨evs, ht, hb, _⟩ := h
    rw [ht, txBytes_append, hb]
    simp [SOUND_THRESHOLD]

theorem sound_comparison_is_strict_witness :
    ('S' ∉ txBytes (iterationEvents 4 30 powerOn) ∧
        (loopBody 4 30 powerOn).PORTB.testBit RED_LED = false) ∧
      'S' ∈ txBytes (iterationEvents 4 31 powerOn) ∧
      txBytes (soundCheck 61 powerOn).trace = txBytes powerOn.trace ++ ['S'] :=
  ⟨(sound_comparison_is_strict 4 30 powerOn (by decide)).1 (by decide),
    (sound_comparison_is_strict 4 31 powerOn (by decide)).2.1 (by decide),
    (sound_comparison_is_strict 4 31 powerOn (by decide)).2.2.2⟩

/-- C6: for every 10-bit sample returned by `ADC_Read`, the product by 202 fits
`unsigned long`, the quotient by 100 is at most 2066 and fits `uint16_t`, and
the value stored in `soundValue` is exactly `adc * 202 / 100`; sample 100 scales
to 202 and sample 1 scales to 2. -/
theorem soundValue_is_exact_quotient (adc : Nat) (s : Mcu) (hadc : adc ≤ 1023) :
    (ADC_Read SOUND_ADC_CHANNEL adc s).1 = adc ∧
      (ADC_Read SOUND_ADC_CHANNEL adc s).1 * 202 < 2 ^ 32 ∧
      scale (ADC_Read SOUND_ADC_CHANNEL adc s).1 = adc * 202 / 100 ∧
      adc * 202 / 100 ≤ 2066 ∧ 2066 < 2 ^ 16 ∧
      scale 100 = 202 ∧ scale 1 = 2 := by
  have h1 : (ADC_Read SOUND_ADC_CHANNEL adc s).1 = adc := by
    rw [ADC_Read_fst, u16_sample adc hadc]
  refine ⟨h1, ?_, ?_, ?_, by decide, by decide, by decide⟩
  · rw [h1]; omega
  · rw [h1, scale_eq adc hadc]
  · omega

theorem soundValue_is_exact_quotient_witness :
    scale (ADC_Read SOUND_ADC_CHANNEL 1023 powerOn).1 = 1023 * 202 / 100 :=
  (soundValue_is_exact_quotient 1023 powerOn (by decide)).2.2.1

/-- C9: for every 10-bit sample, `soundValue > SOUND_THRESHOLD` holds exactly
when the sample is at least 31, and so a pass sends 'S' exactly when the sample
is at least 31; sample 30 scales to 60, sample 31 scales to 62, and no 10-bit
sample scales to 61. -/
theorem sound_branch_iff_sample_ge_31 (pind adc : Nat) (s : Mcu) (hadc : adc ≤ 1023) :
    (scale (ADC_Read SOUND_ADC_CHANNEL adc s).1 > SOUND_THRESHOLD ↔ 31 ≤ adc) ∧
      ('S' ∈ txBytes (iterationEvents pind adc s) ↔ 31 ≤ adc) ∧
      scale 30 = 60 ∧ scale 31 = 62 ∧
      scale (ADC_Read SOUND_ADC_CHANNEL adc s).1 ≠ 61 := by
  have hsc : scale (ADC_Read SOUND_ADC_CHANNEL adc s).1 = adc * 202 / 100 := by
    rw [ADC_Read_fst, scale_sample adc hadc]
  have hiff : adc * 202 / 100 > 60 ↔ 31 ≤ adc := by omega
  refine ⟨?_, ?_, by decide, by decide, ?_⟩
  · rw [hsc]
    exact hiff
  · rw [txBytes_iterationEvents, scale_sample adc hadc, ← hiff]
    by_cases hb : beamBlocked pind ≠ 0 <;> by_cases hv : adc * 202 / 100 > 60 <;>
      simp [passBytes, hb, SOUND_THRESHOLD, hv]
  · rw [hsc]
    omega

theorem sound_branch_iff_sample_ge_31_witness :
    (scale (ADC_Read SOUND_ADC_CHANNEL 31 powerOn).1 > SOUND_THRESHOLD ↔ 31 ≤ 31) ∧
      ('S' ∈ txBytes (iterationEvents 0 30 powerOn) ↔ 31 ≤ 30) :=
  ⟨(sound_branch_iff_sample_ge_31 0 31 powerOn (by decide)).1,
    (sound_branch_iff_sample_ge_31 0 30 powerOn (by decide)).2.1⟩

/-- C7: the infrared emitter pin is held high. The startup configuration sets
bit IR_TX_PIN of PORTB; every store to PORTB in one pass changes at most the
bits YELLOW_LED and RED_LED, so a pass started with the bit set keeps it set in
every store and at its end; and from any power-on state, over any number of
passes on any inputs, every store to PORTB and the final PORTB have the bit
set. -/
theorem ir_emitter_held_high (inputs : List (Nat × Nat)) (pind adc : Nat) (s0 s : Mcu) :
    (setup s0).PORTB.testBit IR_TX_PIN = true ∧
      ((∀ v ∈ portbWrites (iterationEvents pind adc s), SameOtherBits s.PORTB v) ∧
        SameOtherBits s.PORTB (loopBody pind adc s).PORTB) ∧
      (s.PORTB.testBit IR_TX_PIN = true →
        (loopBody pind adc s).PORTB.testBit IR_TX_PIN = true ∧
          ∀ v ∈ portbWrites (iterationEvents pind adc s), v.testBit IR_TX_PIN = true) ∧
      ((main inputs s0).PORTB.testBit IR_TX_PIN = true ∧
        ∀ v ∈ portbWrites (mainEvents inputs s0), v.testBit IR_TX_PIN = true) := by
  have hset : (setup s0).PORTB.testBit IR_TX_PIN = true := by
    rw [setup_PORTB, testBit_u8, Nat.testBit_or, testBit_bit]
    simp [IR_TX_PIN, PB0]
  have hit := iterationEvents_spec pind adc s
  refine ⟨hset, ⟨hit.2.2.1, hit.2.2.2⟩, ?_, ?_⟩
  · intro h0
    constructor
    · rw [sameOtherBits_IR_TX hit.2.2.2, h0]
    · intro v hv
      rw [sameOtherBits_IR_TX (hit.2.2.1 v hv), h0]
  · obtain ⟨_, hp, evs, ht, _, hw⟩ := reach_mainLoop inputs [] (setup s0) (reach_setup s0)
    have he : mainEvents inputs s0 = evs := by
      unfold mainEvents main
      rw [ht, List.drop_left]
    constructor
    · unfold main
      rw [sameOtherBits_IR_TX hp, hset]
    · intro v hv
      rw [he] at hv
      rw [sameOtherBits_IR_TX (hw v hv), hset]

theorem ir_emitter_held_high_witness :
    (loopBody 4 31 (setup powerOn)).PORTB.testBit IR_TX_PIN = true :=
  ((ir_emitter_held_high [] 4 31 powerOn (setup powerOn)).2.2.1 (by decide)).1

/-- C8: for every starting state and every 10-bit sample, when PD2 is set and
`adc * 202 / 100 > 60` the pass ends with RED_LED and YELLOW_LED cleared in
PORTB, and its events end with the store that clears both bits, then the byte
'B', then the closing delay, the bytes sent before being 'I' and 'S' (so 'B' is
sent once, after the store that clears both indicators). -/
theorem combined_branch_overrides_blinks (pind adc : Nat) (s : Mcu) (hadc : adc ≤ 1023)
    (hb : pind.testBit IR_RX_PIN = true) (hs : adc * 202 / 100 > 60) :
    (loopBody pind adc s).PORTB.testBit RED_LED = false ∧
      (loopBody pind adc s).PORTB.testBit YELLOW_LED = false ∧
      ∃ pre v, iterationEvents pind adc s =
          pre ++ [Event.portb v, Event.tx 'B', Event.delay_ms 10] ∧
        txBytes pre = ['I', 'S'] ∧ 'B' ∉ txBytes pre ∧
        v.testBit RED_LED = false ∧ v.testBit YELLOW_LED = false := by
  have hb2 : beamBlocked pind ≠ 0 := (beamBlocked_ne_zero_iff pind).mpr hb
  have hv : scale (u16 adc) > SOUND_THRESHOLD := by
    rw [scale_sample adc hadc]
    exact hs
  refine ⟨?_, ?_, ?_⟩
  · rw [loopBody_RED]
    simp [hb2, hv]
  · rw [loopBody_YELLOW]
    simp [hb2, hv]
  · obtain ⟨pre, v, he, hp, h3, h1⟩ := iterationEvents_both pind adc s hb2 hv
    exact ⟨pre, v, he, hp, by rw [hp]; decide, h3, h1⟩

theorem combined_branch_overrides_blinks_witness :
    (loopBody 4 31 { powerOn with PORTB := 255 }).PORTB.testBit RED_LED = false ∧
      (loopBody 4 31 { powerOn with PORTB := 255 }).PORTB.testBit YELLOW_LED = false :=
  ⟨(combined_branch_overrides_blinks 4 31 { powerOn with PORTB := 255 } (by decide) (by decide)
      (by decide)).1,
    (combined_branch_overrides_blinks 4 31 { powerOn with PORTB := 255 } (by decide) (by decide)
      (by decide)).2.1⟩

/-- C10: for every starting state and every 10-bit sample, a sound-only pass
(PD2 clear, `adc * 202 / 100 > 60`) ends with YELLOW_LED set and RED_LED as it
was at the start, and a beam-only pass (PD2 set, `adc * 202 / 100 ≤ 60`) ends
with RED_LED cleared and YELLOW_LED as it was at the start. -/
theorem single_condition_indicator_frame (pind adc : Nat) (s : Mcu) (hadc : adc ≤ 1023) :
    (pind.testBit IR_RX_PIN = false → adc * 202 / 100 > 60 →
        (loopBody pind adc s).PORTB.testBit YELLOW_LED = true ∧
          (loopBody pind adc s).PORTB.testBit RED_LED = s.PORTB.testBit RED_LED) ∧
      (pind.testBit IR_RX_PIN = true → adc * 202 / 100 ≤ 60 →
        (loopBody pind adc s).PORTB.testBit RED_LED = false ∧
          (loopBody pind adc s).PORTB.testBit YELLOW_LED = s.PORTB.testBit YELLOW_LED) := by
  constructor
  · intro hb hs
    have hb2 : beamBlocked pind = 0 := (beamBlocked_eq_zero_iff pind).mpr hb
    rw [loopBody_YELLOW, loopBody_RED, scale_sample adc hadc]
    simp [hb2, SOUND_THRESHOLD, hs]
  · intro hb hs
    have hb2 : beamBlocked pind ≠ 0 := (beamBlocked_ne_zero_iff pind).mpr hb
    have hs2 : ¬ adc * 202 / 100 > 60 := by omega
    rw [loopBody_YELLOW, loopBody_RED, scale_sample adc hadc]
    simp [hb2, SOUND_THRESHOLD, hs2]

theorem single_condition_indicator_frame_witness :
    ((loopBody 0 31 { powerOn with PORTB := 8 }).PORTB.testBit YELLOW_LED = true ∧
        (loopBody 0 31 { powerOn with PORTB := 8 }).PORTB.testBit RED_LED =
          Nat.testBit 8 RED_LED) ∧
      ((loopBody 4 30 { powerOn with PORTB := 10 }).PORTB.testBit RED_LED = false ∧
        (loopBody 4 30 { powerOn with PORTB := 10 }).PORTB.testBit YELLOW_LED =
          Nat.testBit 10 YELLOW_LED) :=
  ⟨(single_condition_indicator_frame 0 31 { powerOn with PORTB := 8 } (by decide)).1
      (by decide) (by decide),
    (single_condition_indicator_frame 4 30 { powerOn with PORTB := 10 } (by decide)).2
      (by decide) (by decide)⟩

end Ids
